import Mathlib

/-!
# Cluster mirror of `user-manager-api`: reconciliation of nodes, instances and boot order

A shallow embedding of `src/app/types.go` and `src/app/model.go`.

* Go maps are finite association lists with pairwise distinct keys (`GoMap`).
  The order of the entries stands for one iteration order of `range`; statements
  quantify over every `GoMap`, hence over every order.
* Pointers to a `Device` are owned by the `Node`: an `Instance` refers to a
  `Device` of its node by the bus identifier under which the node holds it
  (`none` is the nil pointer).
* `uint64` fields are natural numbers (no arithmetic is performed on them).
* Runtime faults (nil dereference) and goroutines blocked on a channel send are
  explicit outcomes.
-/

namespace App

/-! ## Go maps -/

/-- A Go map: association list whose keys are pairwise distinct. -/
structure GoMap (K V : Type) where
  entries : List (K × V)
  nodup : (entries.map Prod.fst).Nodup

namespace GoMap

variable {K V : Type} [DecidableEq K]

/-- The map literal `map[K]V{}`. -/
def empty : GoMap K V := ⟨[], List.nodup_nil⟩

/-- The keys, in iteration order. -/
def keys (m : GoMap K V) : List K := m.entries.map Prod.fst

/-- The lookup `v, ok := m[k]`; `none` stands for `ok == false`. -/
def get? (m : GoMap K V) (k : K) : Option V :=
  (m.entries.find? (fun e => decide (e.1 = k))).map Prod.snd

/-- The builtin `delete(m, k)`. -/
def delete (m : GoMap K V) (k : K) : GoMap K V :=
  ⟨m.entries.filter (fun e => decide (e.1 ≠ k)),
    (List.filter_sublist m.entries).map Prod.fst |>.nodup m.nodup⟩

/-- The assignment `m[k] = v`. -/
def set (m : GoMap K V) (k : K) (v : V) : GoMap K V :=
  ⟨(k, v) :: (m.delete k).entries, by
    rw [List.map_cons, List.nodup_cons]
    refine ⟨?_, (m.delete k).nodup⟩
    simp [delete, List.mem_map, List.mem_filter]⟩

/-- Update through the pointer stored under `k`: `f` is applied to the value
held under `k`, if there is one. -/
def modify (m : GoMap K V) (k : K) (f : V → V) : GoMap K V :=
  ⟨m.entries.map (fun e => if e.1 = k then (e.1, f e.2) else e), by
    have h : (m.entries.map (fun e => if e.1 = k then (e.1, f e.2) else e)).map Prod.fst
        = m.entries.map Prod.fst := by
      rw [List.map_map]
      apply List.map_congr_left
      intro e _
      by_cases hk : e.1 = k <;> simp [hk]
    rw [h]
    exact m.nodup⟩

/-- Update through every pointer of the map: `for _, x := range m { x.f = ... }`. -/
def mapValues (m : GoMap K V) (f : V → V) : GoMap K V :=
  ⟨m.entries.map (fun e => (e.1, f e.2)), by
    have h : (m.entries.map (fun e => (e.1, f e.2))).map Prod.fst
        = m.entries.map Prod.fst := by
      rw [List.map_map]
      rfl
    rw [h]
    exact m.nodup⟩

/-- A map built by successive assignments, the head of the list being assigned last. -/
def ofList (l : List (K × V)) : GoMap K V :=
  l.foldr (fun e m => m.set e.1 e.2) empty

end GoMap

/-! ## Strings -/

/-- Worker of `Split`: `acc` holds the current field, reversed. -/
def splitChars (sep : Char) : List Char → List Char → List String
  | acc, [] => [String.mk acc.reverse]
  | acc, c :: cs =>
    if c = sep then String.mk acc.reverse :: splitChars sep [] cs
    else splitChars sep (c :: acc) cs

/-- The call `strings.Split(s, sep)` (and `strings.SplitSeq`) for a one-character
separator: the fields between the separators, empty fields included. -/
def Split (s : String) (sep : Char) : List String :=
  splitChars sep [] s.data

/-- The call `strings.HasPrefix(s, p)`. -/
def startsWith (s p : String) : Bool :=
  p.data.isPrefixOf s.data

/-- Modelled from the spec: `AnyPrefixes` is not among the sources. The identifier is
tested against the given ordered prefixes; the first prefix that matches is returned,
and the empty string when none matches. -/
def AnyPrefixes (s : String) (prefixes : List String) : String :=
  match prefixes.find? (fun p => startsWith s p) with
  | some p => p
  | none => ""

/-- Modelled from the spec: `PVEObjectStringToMap` is not among the sources. A raw
configuration string is a comma-separated list of `key=value` fields; a field
without `=` is a key with an empty value. -/
def PVEObjectStringToMap (s : String) : GoMap String String :=
  if s.data = [] then GoMap.empty
  else
    (Split s ',').foldl
      (fun m field =>
        m.set (String.mk (field.data.takeWhile (fun c => decide (c ≠ '='))))
          (String.mk ((field.data.dropWhile (fun c => decide (c ≠ '='))).drop 1)))
      GoMap.empty

/-! ## Data model (`types.go`) -/

/-- The type `InstanceType`. -/
inductive InstanceType where
  | VM
  | CT
  deriving DecidableEq, Repr

/-- The struct `Volume`. -/
structure Volume where
  Volume_ID : String
  Type_ : String
  Storage : String
  Format : String
  Size : Nat
  File : String
  MP : String
  deriving DecidableEq, Repr

/-- The struct `Net`. -/
structure Net where
  Net_ID : String
  Value : String
  Rate : Nat
  VLAN : Nat
  deriving DecidableEq, Repr

/-- The struct `Function`. -/
structure Function where
  Function_ID : String
  Function_Name : String
  Vendor_Name : String
  Reserved : Bool
  deriving DecidableEq, Repr

/-- The struct `Device`; its `Functions` are owned by the device. -/
structure Device where
  Device_ID : String
  Device_Bus : String
  Device_Name : String
  Vendor_Name : String
  Functions : GoMap String Function
  Reserved : Bool

/-- An element of `BootOrder.Enabled` or `BootOrder.Disabled`: a `*Volume` or a `*Net`. -/
inductive BootTarget where
  | volume (v : Volume)
  | net (n : Net)
  deriving DecidableEq, Repr

/-- The identifier carried by a boot target. -/
def BootTarget.ident : BootTarget → String
  | .volume v => v.Volume_ID
  | .net n => n.Net_ID

/-- The struct `BootOrder`. -/
structure BootOrder where
  Enabled : List BootTarget
  Disabled : List BootTarget
  deriving DecidableEq, Repr

/-- The struct `Instance`. An entry of `Devices` is a pointer to a `Device` of the owning
node, given by its bus identifier; `none` is the nil pointer. -/
structure Instance where
  Type_ : InstanceType
  Name : String
  Proctype : String
  Cores : Nat
  Memory : Nat
  Swap : Nat
  Volumes : GoMap String Volume
  Nets : GoMap String Net
  Devices : GoMap String (Option String)
  Boot : BootOrder
  configDisks : GoMap String String
  configNets : GoMap String String
  configHostPCIs : GoMap String String
  configBoot : String

/-- The struct `Node`. -/
structure Node where
  Name : String
  Cores : Nat
  Memory : Nat
  Swap : Nat
  Devices : GoMap String Device
  Instances : GoMap Nat Instance
  Proctypes : List String

/-- The struct `Cluster`. -/
structure Cluster where
  Nodes : GoMap String Node

/-! ## Boot order (`Instance.RebuildBoot`) -/

/-- An iteration order of `range` over the key set of a map built while the program runs:
any rearrangement of the keys. -/
structure RangeOrder where
  order : List String → List String
  perm : ∀ l, (order l).Perm l

/-- The iteration order that visits the keys as they were inserted. -/
def RangeOrder.insertion : RangeOrder := ⟨fun l => l, fun l => List.Perm.refl l⟩

/-- The assignment `eligibleBoot[k] = true` on the key set of `eligibleBoot`
(every value stored in that map is `true`). -/
def eligibleSet (eligibleBoot : List String) (k : String) : List String :=
  if k ∈ eligibleBoot then eligibleBoot else eligibleBoot ++ [k]

/-- Lines 291-300: the key set of `eligibleBoot` before the boot order is read. -/
def eligibleBootInit (inst : Instance) : List String :=
  let fromVolumes := inst.Volumes.keys.foldl
    (fun eligibleBoot k =>
      if AnyPrefixes k ["sata", "scsi", "ide"] ≠ "" then eligibleSet eligibleBoot k
      else eligibleBoot) []
  inst.Nets.keys.foldl (fun eligibleBoot k => eligibleSet eligibleBoot k) fromVolumes

/-- Lines 306-316: one iteration of the loop over the targets of the boot order. The
state is `Boot.Enabled` and the key set of `eligibleBoot`. -/
def enabledStep (inst : Instance) (st : List BootTarget × List String)
    (bootTarget : String) : List BootTarget × List String :=
  let isEligible := decide (bootTarget ∈ st.2)
  let rest := st.2.filter (fun k => decide (k ≠ bootTarget))
  match inst.Volumes.get? bootTarget, isEligible with
  | some val, true => (st.1 ++ [BootTarget.volume val], rest)
  | _, _ =>
    match inst.Nets.get? bootTarget, isEligible with
    | some val, true => (st.1 ++ [BootTarget.net val], rest)
    | _, _ => (st.1, rest)

/-- Lines 320-328: one iteration of the loop over the remaining keys of `eligibleBoot`
(the value `isEligible` read from the map is `true`). -/
def disabledStep (inst : Instance) (disabled : List BootTarget)
    (bootTarget : String) : List BootTarget :=
  match inst.Volumes.get? bootTarget with
  | some val => disabled ++ [BootTarget.volume val]
  | none =>
    match inst.Nets.get? bootTarget with
    | some val => disabled ++ [BootTarget.net val]
    | none => disabled

/-- The method `Instance.RebuildBoot`. `parse` is `PVEObjectStringToMap`, `range` the
order in which the final loop visits `eligibleBoot`. -/
def RebuildBoot (parse : String → GoMap String String) (range : RangeOrder)
    (inst : Instance) : Instance :=
  let eligibleBoot := eligibleBootInit inst
  let bootOrder := ((parse inst.configBoot).get? "order").getD ""
  let st : List BootTarget × List String :=
    if bootOrder.data.length ≠ 0 then
      (Split bootOrder ';').foldl (enabledStep inst) ([], eligibleBoot)
    else ([], eligibleBoot)
  let disabled := (range.order st.2).foldl (disabledStep inst) []
  { inst with Boot := ⟨st.1, disabled⟩ }

/-! ## Backend and outcomes -/

/-- The collaborators that are not among the sources (`proxmox.go`, `utils.go`): the
backend calls, each returning a pointer (`none` is nil) and an error (`none` is nil), the
identifier utilities, and the iteration order of `eligibleBoot`. -/
structure Backend where
  pveNode : String → Option Node × Option String
  VirtualMachines : Node → List Nat × Option String
  Containers : Node → List Nat × Option String
  VirtualMachine : Node → Nat → Option Instance × Option String
  Container : Node → Nat → Option Instance × Option String
  GetVolumeInfo : Node → String → Option Volume × Option String
  GetNetInfo : String → Option Net × Option String
  DeviceBusIDIsSuperDevice : String → Bool
  PVEObjectStringToMap : String → GoMap String String
  range : RangeOrder

/-- A runtime fault (nil pointer dereference), with the source line where it occurs. -/
structure Fault where
  line : Nat
  deriving DecidableEq, Repr

/-- How the goroutine started by `RebuildInstance` or `RebuildNode` ends. The caller
returns the first value sent on `err_ch`; the goroutine keeps running after that send.
* `finished r s`: the body ran to its end, its last send delivered `r`, the state is `s`;
* `blocked line r s`: `r` was delivered earlier, and the goroutine is stuck for ever at
  the send of `line`, which has no receiver; the state is `s`;
* `fault line r`: nil dereference at `line` (the process crashes); `r` is what the caller
  had received, if anything. -/
inductive Outcome (σ : Type) where
  | finished (received : Option String) (state : σ)
  | blocked (line : Nat) (received : Option String) (state : σ)
  | fault (line : Nat) (received : Option (Option String))

/-! ## Sub-resources (`RebuildVolume`, `RebuildNet`, `RebuildDevice`) -/

/-- The list `VolumeTypes`. -/
def VolumeTypes : List String := ["sata", "scsi", "ide", "rootfs", "mp", "unused"]

/-- The method `Instance.RebuildVolume`: the instance and the returned error. -/
def RebuildVolume (be : Backend) (host : Node) (inst : Instance) (volid : String) :
    Except Fault (Instance × Option String) :=
  let volumeDataString := (inst.configDisks.get? volid).getD ""
  match be.GetVolumeInfo host volumeDataString with
  | (_, some err) => .ok (inst, some err)
  | (none, none) => .error ⟨245⟩
  | (some volume, none) =>
    let voltype := AnyPrefixes volid VolumeTypes
    let volume := { volume with Type_ := voltype, Volume_ID := volid }
    .ok ({ inst with Volumes := inst.Volumes.set volid volume }, none)

/-- The method `Instance.RebuildNet`: the instance and the returned error. -/
def RebuildNet (be : Backend) (inst : Instance) (netid : String) :
    Except Fault (Instance × Option String) :=
  let net := (inst.configNets.get? netid).getD ""
  match be.GetNetInfo net with
  | (none, _) => .error ⟨256⟩
  | (some netinfo, err) =>
    let netinfo := { netinfo with Net_ID := netid }
    if err.isSome then .ok (inst, none)
    else .ok ({ inst with Nets := inst.Nets.set netid netinfo }, none)

/-- Modelled from the spec: `DeviceBusIDIsSuperDevice` is not among the sources. A bus
identifier denotes a whole device when it has no function suffix, that is no `.`. -/
def DeviceBusIDIsSuperDevice (busID : String) : Bool :=
  !(busID.data.contains '.')

/-- Line 279 on every function of a device: `function.Reserved = true`. -/
def reserveFunctions (d : Device) : Device :=
  { d with Functions := d.Functions.mapValues (fun function => { function with Reserved := true }) }

/-- Lines 276-283 of `RebuildDevice`. -/
def assignDevice (be : Backend) (host : Node) (inst : Instance)
    (hostDeviceBusID instanceDeviceBusID : String) : Except Fault (Node × Instance) :=
  if be.DeviceBusIDIsSuperDevice hostDeviceBusID then
    match host.Devices.get? hostDeviceBusID with
    | none => .error ⟨278⟩
    | some _ =>
      .ok ({ host with Devices := host.Devices.modify hostDeviceBusID reserveFunctions },
           { inst with Devices := inst.Devices.set instanceDeviceBusID (some hostDeviceBusID) })
  else .ok (host, inst)

/-- The method `Instance.RebuildDevice`: it writes to the node (through the shared
devices) and to the instance. -/
def RebuildDevice (be : Backend) (host : Node) (inst : Instance) (deviceid : String) :
    Except Fault (Node × Instance) :=
  match inst.configHostPCIs.get? deviceid with
  | none => .ok (host, inst)
  | some instanceDevice =>
    let hostDeviceBusID := (Split instanceDevice ',').headD ""
    let instanceDeviceBusID := deviceid
    match assignDevice be host inst hostDeviceBusID instanceDeviceBusID with
    | .error f => .error f
    | .ok (host, inst) =>
      match (inst.Devices.get? instanceDeviceBusID).join with
      | none => .error ⟨285⟩
      | some bus =>
        let devices := host.Devices.modify bus (fun d => { d with Device_ID := deviceid })
        .ok ({ host with Devices := devices }, inst)

/-! ## Instances (`Node.RebuildInstance`) -/

/-- The send `err_ch <- v` when the caller has so far taken `received` from the channel:
the first send is delivered (`ok v`), a later one has no receiver and blocks for ever
(`error r`, where `r` is the value delivered earlier). -/
def send (received : Option (Option String)) (v : Option String) :
    Except (Option String) (Option String) :=
  match received with
  | none => .ok v
  | some r => .error r

/-- A conditional send, `if c { err_ch <- v }`: what the caller has received afterwards. -/
def sendIf (c : Bool) (received : Option (Option String)) (v : Option String) :
    Except (Option String) (Option (Option String)) :=
  if c then (send received v).map some else .ok received

/-- The node with `instance` stored under `instanceID` (line 212; the node holds a
pointer, so it sees every later write to the instance). -/
def withInstance (host : Node) (instanceID : Nat) (inst : Instance) : Node :=
  { host with Instances := host.Instances.set instanceID inst }

/-- Lines 214-216: the loop over the keys of `configDisks`; returned errors are dropped. -/
def rebuildVolumes (be : Backend) (host : Node) (instanceID : Nat) :
    List String → Instance → Except Fault Instance
  | [], inst => .ok inst
  | volid :: rest, inst =>
    match RebuildVolume be (withInstance host instanceID inst) inst volid with
    | .error f => .error f
    | .ok (inst, _) => rebuildVolumes be host instanceID rest inst

/-- Lines 218-220: the loop over the keys of `configNets`. -/
def rebuildNets (be : Backend) : List String → Instance → Except Fault Instance
  | [], inst => .ok inst
  | netid :: rest, inst =>
    match RebuildNet be inst netid with
    | .error f => .error f
    | .ok (inst, _) => rebuildNets be rest inst

/-- Lines 222-224: the loop over the keys of `configHostPCIs`. -/
def rebuildDevices (be : Backend) : List String → Node × Instance → Except Fault (Node × Instance)
  | [], st => .ok st
  | deviceid :: rest, st =>
    match RebuildDevice be st.1 st.2 deviceid with
    | .error f => .error f
    | .ok st => rebuildDevices be rest st

/-- Lines 212-230 of `RebuildInstance`, for a non-nil `instance`. -/
def instanceBody (be : Backend) (host : Node) (instanceID : Nat) (inst : Instance)
    (received : Option (Option String)) : Outcome Node :=
  match rebuildVolumes be host instanceID inst.configDisks.keys inst with
  | .error f => .fault f.line received
  | .ok inst =>
    match rebuildNets be inst.configNets.keys inst with
    | .error f => .fault f.line received
    | .ok inst =>
      match rebuildDevices be inst.configHostPCIs.keys (host, inst) with
      | .error f => .fault f.line received
      | .ok (host, inst) =>
        let inst :=
          if inst.Type_ = InstanceType.VM then RebuildBoot be.PVEObjectStringToMap be.range inst
          else inst
        let host := withInstance host instanceID inst
        match send received none with
        | .error r => .blocked 230 r host
        | .ok r => .finished r host

/-- The method `Node.RebuildInstance`: the body of its goroutine, run to the point where
it ends, blocks or faults. -/
def RebuildInstance (be : Backend) (host : Node) (instancetype : InstanceType) (vmid : Nat) :
    Outcome Node :=
  let instanceID := vmid
  let fetched :=
    match instancetype with
    | .VM => be.VirtualMachine host vmid
    | .CT => be.Container host vmid
  let err := fetched.2
  let previous := host.Instances.get? instanceID
  match sendIf (err.isSome && previous.isNone) none
      (some ("error retrieving " ++ host.Name ++ "." ++ toString instanceID ++ ": "
        ++ err.getD "")) with
  | .error r => .blocked 199 r host
  | .ok received =>
    match fetched.1 with
    | none => .fault 203 received
    | some inst =>
      let stale := err.isSome && previous.isSome
      let host := if stale then { host with Instances := host.Instances.delete instanceID } else host
      match sendIf stale received none with
      | .error r => .blocked 209 r host
      | .ok received => instanceBody be host instanceID inst received

/-! ## Nodes (`Cluster.RebuildNode`) -/

/-- Lines 118-125 and 132-139: the loop over the identifiers of the instances. A goroutine
of `RebuildInstance` that goes on after its send is run to its stopping point before the
loop proceeds; a fault crashes the process. -/
def rebuildInstances (be : Backend) (instancetype : InstanceType) :
    List Nat → Node → Except Fault Node
  | [], host => .ok host
  | vmid :: rest, host =>
    match RebuildInstance be host instancetype vmid with
    | .finished _ host => rebuildInstances be instancetype rest host
    | .blocked _ _ host => rebuildInstances be instancetype rest host
    | .fault line _ => .error ⟨line⟩

/-- Lines 143-146: the flag `reserved` after the loop over the functions of a device. -/
def functionsReserved (device : Device) : Bool :=
  device.Functions.entries.foldl (fun reserved e => reserved || e.2.Reserved) false

/-- Lines 141-148: every device of the node gets `Reserved` recomputed. -/
def recomputeReserved (host : Node) : Node :=
  let devices := host.Devices.mapValues
    (fun device => { device with Reserved := functionsReserved device })
  { host with Devices := devices }

/-- Lines 110-150 of `RebuildNode`, for a non-nil `host`. The cluster holds a pointer to
`host`, so the cluster at every stopping point holds the host as it is then. -/
def nodeBody (be : Backend) (cluster : Cluster) (hostName : String) (host : Node)
    (received : Option (Option String)) : Outcome Cluster :=
  let commit : Node → Cluster := fun h => ⟨cluster.Nodes.set hostName h⟩
  let vms := be.VirtualMachines host
  match sendIf vms.2.isSome received vms.2 with
  | .error r => .blocked 115 r (commit host)
  | .ok received =>
    match rebuildInstances be InstanceType.VM vms.1 host with
    | .error f => .fault f.line received
    | .ok host =>
      let cts := be.Containers host
      match sendIf cts.2.isSome received cts.2 with
      | .error r => .blocked 130 r (commit host)
      | .ok received =>
        match rebuildInstances be InstanceType.CT cts.1 host with
        | .error f => .fault f.line received
        | .ok host =>
          let host := recomputeReserved host
          match send received none with
          | .error r => .blocked 150 r (commit host)
          | .ok r => .finished r (commit host)

/-- The method `Cluster.RebuildNode`: the body of its goroutine, run to the point where
it ends, blocks or faults. -/
def RebuildNode (be : Backend) (cluster : Cluster) (hostName : String) : Outcome Cluster :=
  let fetched := be.pveNode hostName
  let err := fetched.2
  let previous := cluster.Nodes.get? hostName
  match sendIf (err.isSome && previous.isNone) none
      (some ("error retrieving " ++ hostName ++ ": " ++ err.getD "")) with
  | .error r => .blocked 97 r cluster
  | .ok received =>
    match fetched.1 with
    | none => .fault 101 received
    | some host =>
      let stale := err.isSome && previous.isSome
      let cluster : Cluster := if stale then ⟨cluster.Nodes.delete hostName⟩ else cluster
      match sendIf stale received none with
      | .error r => .blocked 107 r cluster
      | .ok received => nodeBody be cluster hostName host received

/-- What the caller of `RebuildNode` or `RebuildInstance` gets back: the first value sent
on `err_ch`, if any was sent. -/
def Outcome.returned {σ : Type} : Outcome σ → Option (Option String)
  | .finished r _ => some r
  | .blocked _ r _ => some r
  | .fault _ r => r

/-! ## Vocabulary of the specification -/

/-- The eligibility test of the specification for a volume identifier: it has prefix
`sata`, `scsi` or `ide`. -/
def hasBootPrefix (k : String) : Bool :=
  startsWith k "sata" || startsWith k "scsi" || startsWith k "ide"

/-- An identifier of the instance that names a boot-eligible volume or a net. -/
def isBootEligible (inst : Instance) (k : String) : Bool :=
  (decide (k ∈ inst.Volumes.keys) && hasBootPrefix k) || decide (k ∈ inst.Nets.keys)

/-- The boot-eligible resources of an instance: its volumes with an eligible identifier,
then its nets. -/
def bootEligible (inst : Instance) : List BootTarget :=
  (inst.Volumes.entries.filter (fun e => hasBootPrefix e.1)).map (fun e => BootTarget.volume e.2)
    ++ inst.Nets.entries.map (fun e => BootTarget.net e.2)

/-- The identifiers of the boot-eligible resources of an instance. -/
def bootEligibleIds (inst : Instance) : List String :=
  inst.Volumes.keys.filter hasBootPrefix ++ inst.Nets.keys

/-- A list without its repetitions: of each element the first occurrence is kept. -/
def firstOccurrences : List String → List String
  | [] => []
  | t :: ts => t :: (firstOccurrences ts).filter (fun x => decide (x ≠ t))

/-- The targets of the `order` field of the raw boot string, as `RebuildBoot` reads
them (lines 302-305). -/
def bootTargets (parse : String → GoMap String String) (inst : Instance) : List String :=
  let bootOrder := ((parse inst.configBoot).get? "order").getD ""
  if bootOrder.data.length ≠ 0 then Split bootOrder ';' else []

/-- The resource that the loops of `RebuildBoot` find under an identifier: the volume
stored under it, else the net stored under it. -/
def resolve (inst : Instance) (k : String) : Option BootTarget :=
  match inst.Volumes.get? k with
  | some val => some (BootTarget.volume val)
  | none => (inst.Nets.get? k).map BootTarget.net

/-- Every volume and net is stored under its own identifier, as `RebuildVolume`
(line 246) and `RebuildNet` (line 256) store them. -/
def keyedById (inst : Instance) : Prop :=
  (∀ e ∈ inst.Volumes.entries, e.2.Volume_ID = e.1) ∧
  (∀ e ∈ inst.Nets.entries, e.2.Net_ID = e.1)

/-! ## Sample data -/

/-- A volume as `RebuildVolume` stores it under `volid`. -/
def sampleVolume (volid : String) : Volume :=
  ⟨volid, AnyPrefixes volid VolumeTypes, "local", "raw", 0, "", ""⟩

/-- A net as `RebuildNet` stores it under `netid`. -/
def sampleNet (netid : String) : Net :=
  ⟨netid, "virtio", 0, 0⟩

/-- A VM with the given volume identifiers, net identifiers and raw boot string. -/
def sampleInstance (volumes nets : List String) (configBoot : String) : Instance :=
  ⟨InstanceType.VM, "vm", "host", 1, 0, 0,
    GoMap.ofList (volumes.map (fun k => (k, sampleVolume k))),
    GoMap.ofList (nets.map (fun k => (k, sampleNet k))),
    GoMap.empty, ⟨[], []⟩, GoMap.empty, GoMap.empty, GoMap.empty, configBoot⟩

/-! ## Observations on outcomes -/

/-- The state reached once the whole body of the goroutine has been executed: the
goroutine ended, or it is stuck at its final send (line `last`). -/
def Outcome.atEnd {σ : Type} (last : Nat) : Outcome σ → Option σ
  | .finished _ s => some s
  | .blocked line _ s => if line = last then some s else none
  | .fault _ _ => none

/-- The state in which the goroutine stops, unless the process crashed. -/
def Outcome.state? {σ : Type} : Outcome σ → Option σ
  | .finished _ s => some s
  | .blocked _ _ s => some s
  | .fault _ _ => none

/-- The line of the nil dereference, when the process crashed. -/
def Outcome.faultLine? {σ : Type} : Outcome σ → Option Nat
  | .fault line _ => some line
  | _ => none

/-- The line of the send at which the goroutine is stuck for ever, if it is. -/
def Outcome.blockedLine? {σ : Type} : Outcome σ → Option Nat
  | .blocked line _ _ => some line
  | _ => none

/-! ## Sample nodes and backends -/

/-- A function of a sample device. -/
def sampleFunction (functionID : String) (reserved : Bool) : Function :=
  ⟨functionID, "function", "vendor", reserved⟩

/-- A device on bus `bus` with the given functions and aggregate flag. -/
def sampleDevice (bus : String) (functions : List (String × Bool)) (reserved : Bool) : Device :=
  ⟨"", bus, "device", "vendor",
    GoMap.ofList (functions.map (fun f => (f.1, sampleFunction f.1 f.2))), reserved⟩

/-- A node with the given core count and devices and no instance. -/
def sampleNode (name : String) (cores : Nat) (devices : List Device) : Node :=
  ⟨name, cores, 0, 0, GoMap.ofList (devices.map (fun d => (d.Device_Bus, d))), GoMap.empty, []⟩

/-- An instance as the backend returns it: raw configuration only, its maps empty. -/
def fetchedInstance (instancetype : InstanceType) (nets pcis : List (String × String)) :
    Instance :=
  ⟨instancetype, "guest", "host", 1, 0, 0, GoMap.empty, GoMap.empty, GoMap.empty, ⟨[], []⟩,
    GoMap.empty, GoMap.ofList nets, GoMap.ofList pcis, ""⟩

/-- A backend given by its answers for hosts, virtual machines and nets; it lists the
virtual machines `vms` and no container on every host. -/
def sampleBackend (pveNode : String → Option Node × Option String) (vms : List Nat)
    (virtualMachine : Nat → Option Instance × Option String)
    (getNetInfo : String → Option Net × Option String) : Backend where
  pveNode := pveNode
  VirtualMachines := fun _ => (vms, none)
  Containers := fun _ => ([], none)
  VirtualMachine := fun _ vmid => virtualMachine vmid
  Container := fun _ _ => (none, some "no such container")
  GetVolumeInfo := fun _ _ => (none, some "no such volume")
  GetNetInfo := getNetInfo
  DeviceBusIDIsSuperDevice := DeviceBusIDIsSuperDevice
  PVEObjectStringToMap := PVEObjectStringToMap
  range := RangeOrder.insertion

/-- A net parser that accepts every string. -/
def lenientNetInfo (raw : String) : Option Net × Option String :=
  (some ⟨"", raw, 0, 0⟩, none)

/-- A net parser that reports an error on every string, returning what it has parsed. -/
def failingNetInfo (raw : String) : Option Net × Option String :=
  (some ⟨"", raw, 0, 0⟩, some "malformed net")

/-- A host with two devices: one with an unreserved and a reserved function and the
aggregate flag unset, one with an unreserved function and the aggregate flag set. -/
def twoDeviceHost : Node :=
  sampleNode "pve1" 8
    [sampleDevice "0000:01:00" [("0", false), ("1", true)] false,
     sampleDevice "0000:02:00" [("0", false)] true]

/-- A backend on which every host is reachable and is `twoDeviceHost`, without instances. -/
def reachableBackend : Backend :=
  sampleBackend (fun _ => (some twoDeviceHost, none)) [] (fun _ => (none, some "no such vm"))
    lenientNetInfo

/-- A backend on which no host is reachable; the failed fetch returns a non-nil empty host. -/
def unreachableBackend : Backend :=
  sampleBackend (fun name => (some (sampleNode name 0 []), some "unreachable")) []
    (fun _ => (none, some "no such vm")) lenientNetInfo

/-- A backend on which no host is reachable; the failed fetch returns the nil pointer. -/
def unreachableNilBackend : Backend :=
  sampleBackend (fun _ => (none, some "unreachable")) [] (fun _ => (none, some "no such vm"))
    lenientNetInfo

/-- A cluster that knows the single host pve1, with 8 cores. -/
def oneNodeCluster : Cluster :=
  ⟨GoMap.ofList [("pve1", sampleNode "pve1" 8 [])]⟩

/-- A host with one unreserved device that has one unreserved function. -/
def oneDeviceHost : Node :=
  sampleNode "pve1" 8 [sampleDevice "0000:01:00" [("0", false)] false]

/-- A backend on which virtual machine 100 has the PCI entry `hostpci0` with the raw
value `raw`. -/
def pciBackend (raw : String) : Backend :=
  sampleBackend (fun _ => (some oneDeviceHost, none)) [100]
    (fun _ => (some (fetchedInstance InstanceType.VM [] [("hostpci0", raw)]), none))
    lenientNetInfo

/-- The line of the fault of a sub-resource operation, if it faults. -/
def faultLineOf {α : Type} : Except Fault α → Option Nat
  | .error f => some f.line
  | .ok _ => none

/-- The result of a sub-resource operation, if it does not fault. -/
def resultOf {α : Type} : Except Fault α → Option α
  | .error _ => none
  | .ok a => some a

/-! # Properties -/

/-! ## Go maps -/

namespace GoMap

variable {K V : Type} [DecidableEq K]

theorem get?_eq_none_iff (m : GoMap K V) (k : K) : m.get? k = none ↔ k ∉ m.keys := by
  unfold get? keys
  rw [Option.map_eq_none', List.find?_eq_none]
  constructor
  · intro h hk
    obtain ⟨e, he, rfl⟩ := List.mem_map.1 hk
    exact h e he (by simp)
  · intro h e he hek
    exact h (List.mem_map.2 ⟨e, he, by simpa using hek⟩)

theorem get?_isSome_iff (m : GoMap K V) (k : K) : (m.get? k).isSome ↔ k ∈ m.keys := by
  rw [← not_iff_not, ← get?_eq_none_iff]
  cases m.get? k <;> simp

theorem find?_of_nodup (l : List (K × V)) (hl : (l.map Prod.fst).Nodup) (e : K × V)
    (he : e ∈ l) : l.find? (fun x => decide (x.1 = e.1)) = some e := by
  induction l with
  | nil => cases he
  | cons a l ih =>
    rw [List.map_cons, List.nodup_cons] at hl
    rcases List.mem_cons.1 he with rfl | h
    · simp
    · have hne : a.1 ≠ e.1 := by
        intro heq
        exact hl.1 (heq ▸ List.mem_map_of_mem Prod.fst h)
      rw [List.find?_cons_of_neg _ (by simpa using hne)]
      exact ih hl.2 h

theorem get?_of_mem (m : GoMap K V) (e : K × V) (he : e ∈ m.entries) :
    m.get? e.1 = some e.2 := by
  unfold get?
  rw [find?_of_nodup m.entries m.nodup e he]
  rfl

theorem mem_of_get? (m : GoMap K V) (k : K) (v : V) (h : m.get? k = some v) :
    (k, v) ∈ m.entries := by
  unfold get? at h
  obtain ⟨e, he, rfl⟩ := Option.map_eq_some'.1 h
  have hk := List.find?_some he
  have hm := List.mem_of_find?_eq_some he
  have : e.1 = k := by simpa using hk
  subst this
  exact hm

end GoMap

/-! ## Identifier utilities -/

theorem AnyPrefixes_boot (k : String) :
    (AnyPrefixes k ["sata", "scsi", "ide"] ≠ "") ↔ hasBootPrefix k = true := by
  unfold AnyPrefixes hasBootPrefix
  simp only [List.find?]
  cases h1 : startsWith k "sata" <;> cases h2 : startsWith k "scsi" <;>
    cases h3 : startsWith k "ide" <;> simp

/-! ## The eligible set -/

theorem mem_eligibleSet (e : List String) (k x : String) :
    x ∈ eligibleSet e k ↔ x ∈ e ∨ x = k := by
  unfold eligibleSet
  by_cases h : k ∈ e
  · rw [if_pos h]
    constructor
    · exact Or.inl
    · rintro (hx | rfl)
      · exact hx
      · exact h
  · rw [if_neg h]
    simp

theorem nodup_eligibleSet (e : List String) (k : String) (h : e.Nodup) :
    (eligibleSet e k).Nodup := by
  unfold eligibleSet
  by_cases hk : k ∈ e
  · rw [if_pos hk]
    exact h
  · rw [if_neg hk]
    exact List.Nodup.append h (List.nodup_singleton k) (by simpa using hk)

theorem mem_foldl_eligibleSet (p : String → Bool) (l : List String) :
    ∀ (acc : List String) (x : String),
      x ∈ l.foldl (fun e k => if p k = true then eligibleSet e k else e) acc
        ↔ x ∈ acc ∨ (x ∈ l ∧ p x = true) := by
  induction l with
  | nil => intro acc x; simp
  | cons a l ih =>
    intro acc x
    rw [List.foldl_cons, ih]
    by_cases ha : p a = true
    · rw [if_pos ha, mem_eligibleSet]
      constructor
      · rintro ((h | rfl) | ⟨h1, h2⟩)
        · exact Or.inl h
        · exact Or.inr ⟨List.mem_cons_self _ _, ha⟩
        · exact Or.inr ⟨List.mem_cons_of_mem _ h1, h2⟩
      · rintro (h | ⟨h1, h2⟩)
        · exact Or.inl (Or.inl h)
        · rcases List.mem_cons.1 h1 with rfl | h1
          · exact Or.inl (Or.inr rfl)
          · exact Or.inr ⟨h1, h2⟩
    · rw [if_neg ha]
      constructor
      · rintro (h | ⟨h1, h2⟩)
        · exact Or.inl h
        · exact Or.inr ⟨List.mem_cons_of_mem _ h1, h2⟩
      · rintro (h | ⟨h1, h2⟩)
        · exact Or.inl h
        · rcases List.mem_cons.1 h1 with rfl | h1
          · exact absurd h2 ha
          · exact Or.inr ⟨h1, h2⟩

theorem nodup_foldl_eligibleSet (p : String → Bool) (l : List String) :
    ∀ (acc : List String), acc.Nodup →
      (l.foldl (fun e k => if p k = true then eligibleSet e k else e) acc).Nodup := by
  induction l with
  | nil => intro acc h; exact h
  | cons a l ih =>
    intro acc h
    rw [List.foldl_cons]
    apply ih
    by_cases ha : p a = true
    · rw [if_pos ha]
      exact nodup_eligibleSet acc a h
    · rw [if_neg ha]
      exact h

theorem foldl_eligibleSet_eq (p : String → Bool) (l : List String) :
    ∀ (acc : List String), l.Nodup → (∀ x ∈ l, x ∉ acc) →
      l.foldl (fun e k => if p k = true then eligibleSet e k else e) acc
        = acc ++ l.filter p := by
  induction l with
  | nil => intro acc _ _; simp
  | cons a l ih =>
    intro acc hl hd
    rw [List.nodup_cons] at hl
    rw [List.foldl_cons]
    by_cases ha : p a = true
    · have hacc : a ∉ acc := hd a (List.mem_cons_self _ _)
      rw [if_pos ha, List.filter_cons_of_pos ha]
      have hset : eligibleSet acc a = acc ++ [a] := by
        unfold eligibleSet
        rw [if_neg hacc]
      rw [hset, ih (acc ++ [a]) hl.2]
      · simp
      · intro x hx hmem
        rcases List.mem_append.1 hmem with h | h
        · exact hd x (List.mem_cons_of_mem _ hx) h
        · have : x = a := by simpa using h
          subst this
          exact hl.1 hx
    · rw [if_neg ha, List.filter_cons_of_neg ha]
      exact ih acc hl.2 (fun x hx => hd x (List.mem_cons_of_mem _ hx))

theorem eligibleBootInit_eq (inst : Instance) :
    eligibleBootInit inst
      = inst.Nets.keys.foldl (fun e k => if (fun _ => true) k = true then eligibleSet e k else e)
          (inst.Volumes.keys.foldl
            (fun e k => if hasBootPrefix k = true then eligibleSet e k else e) []) := by
  unfold eligibleBootInit
  simp only [AnyPrefixes_boot, if_true]

theorem mem_eligibleBootInit (inst : Instance) (x : String) :
    x ∈ eligibleBootInit inst ↔ isBootEligible inst x = true := by
  rw [eligibleBootInit_eq, mem_foldl_eligibleSet, mem_foldl_eligibleSet]
  unfold isBootEligible
  simp

theorem nodup_eligibleBootInit (inst : Instance) : (eligibleBootInit inst).Nodup := by
  rw [eligibleBootInit_eq]
  exact nodup_foldl_eligibleSet _ _ _ (nodup_foldl_eligibleSet _ _ _ List.nodup_nil)

theorem eligibleBootInit_of_disjoint (inst : Instance)
    (hdisj : ∀ k ∈ inst.Volumes.keys, k ∉ inst.Nets.keys) :
    eligibleBootInit inst = bootEligibleIds inst := by
  rw [eligibleBootInit_eq]
  rw [foldl_eligibleSet_eq hasBootPrefix inst.Volumes.keys [] inst.Volumes.nodup (by simp)]
  rw [foldl_eligibleSet_eq (fun _ => true) inst.Nets.keys _ inst.Nets.nodup]
  · unfold bootEligibleIds
    simp
  · intro x hx hmem
    rw [List.nil_append] at hmem
    exact hdisj x (List.mem_of_mem_filter hmem) hx

/-! ## The loops of `RebuildBoot` -/

theorem resolve_isSome_of_eligible (inst : Instance) (k : String)
    (h : k ∈ eligibleBootInit inst) : (resolve inst k).isSome = true := by
  rw [mem_eligibleBootInit] at h
  unfold isBootEligible at h
  unfold resolve
  cases hv : inst.Volumes.get? k with
  | some v => rfl
  | none =>
    have hk : k ∉ inst.Volumes.keys := (GoMap.get?_eq_none_iff _ _).1 hv
    have hn : k ∈ inst.Nets.keys := by simpa [hk] using h
    have := (GoMap.get?_isSome_iff inst.Nets k).2 hn
    simpa using this

theorem enabledStep_eq (inst : Instance) (st : List BootTarget × List String) (t : String)
    (hres : ∀ k ∈ st.2, (resolve inst k).isSome = true) :
    enabledStep inst st t
      = (st.1 ++ (if t ∈ st.2 then (resolve inst t).toList else []),
         st.2.filter (fun k => decide (k ≠ t))) := by
  unfold enabledStep
  by_cases ht : t ∈ st.2
  · have hr := hres t ht
    unfold resolve at hr ⊢
    rw [if_pos ht]
    cases hv : inst.Volumes.get? t with
    | some v => simp [ht]
    | none =>
      rw [hv] at hr
      cases hn : inst.Nets.get? t with
      | some n => simp [ht]
      | none => rw [hn] at hr; simp at hr
  · rw [if_neg ht]
    cases hv : inst.Volumes.get? t <;> cases hn : inst.Nets.get? t <;> simp [ht]

theorem firstOccurrences_filter (p : String → Bool) (l : List String) :
    firstOccurrences (l.filter p) = (firstOccurrences l).filter p := by
  induction l with
  | nil => rfl
  | cons a l ih =>
    by_cases ha : p a = true
    · rw [List.filter_cons_of_pos ha]
      simp only [firstOccurrences]
      rw [List.filter_cons_of_pos ha, ih, List.filter_filter, List.filter_filter]
      congr 1
      apply List.filter_congr
      intro x _
      exact Bool.and_comm _ _
    · rw [List.filter_cons_of_neg ha]
      simp only [firstOccurrences]
      rw [List.filter_cons_of_neg ha, ih, List.filter_filter]
      apply List.filter_congr
      intro x _
      by_cases hx : x = a
      · subst hx
        simp [ha]
      · simp [hx]

theorem mem_firstOccurrences (l : List String) (x : String) :
    x ∈ firstOccurrences l ↔ x ∈ l := by
  induction l with
  | nil => simp [firstOccurrences]
  | cons a l ih =>
    simp only [firstOccurrences, List.mem_cons, List.mem_filter, ih]
    by_cases hx : x = a
    · simp [hx]
    · simp [hx]

theorem nodup_firstOccurrences (l : List String) : (firstOccurrences l).Nodup := by
  induction l with
  | nil => exact List.nodup_nil
  | cons a l ih =>
    simp only [firstOccurrences]
    rw [List.nodup_cons]
    refine ⟨?_, ih.filter _⟩
    simp [List.mem_filter]

theorem foldl_enabledStep (inst : Instance) (targets : List String) :
    ∀ st : List BootTarget × List String,
      (∀ k ∈ st.2, (resolve inst k).isSome = true) →
      targets.foldl (enabledStep inst) st
        = (st.1 ++ (firstOccurrences (targets.filter (fun t => decide (t ∈ st.2)))).filterMap
              (resolve inst),
           st.2.filter (fun k => decide (k ∉ targets))) := by
  induction targets with
  | nil =>
    intro st _
    simp [firstOccurrences]
  | cons t ts ih =>
    intro st hres
    rw [List.foldl_cons, enabledStep_eq inst st t hres]
    rw [ih _ (fun k hk => hres k (List.mem_of_mem_filter hk))]
    have hfilter : ts.filter (fun x => decide (x ∈ st.2.filter (fun k => decide (k ≠ t))))
        = (ts.filter (fun x => decide (x ∈ st.2))).filter (fun x => decide (x ≠ t)) := by
      rw [List.filter_filter]
      apply List.filter_congr
      intro x _
      simp [List.mem_filter, and_comm]
    have hrest : (st.2.filter (fun k => decide (k ≠ t))).filter (fun k => decide (k ∉ ts))
        = st.2.filter (fun k => decide (k ∉ t :: ts)) := by
      rw [List.filter_filter]
      apply List.filter_congr
      intro x _
      by_cases h1 : x = t <;> by_cases h2 : x ∈ ts <;> simp [h1, h2]
    refine Prod.ext ?_ hrest
    show (st.1 ++ _) ++ _ = st.1 ++ _
    rw [hfilter, firstOccurrences_filter, List.append_assoc]
    congr 1
    by_cases ht : t ∈ st.2
    · rw [if_pos ht, List.filter_cons_of_pos (by simpa using ht)]
      simp only [firstOccurrences]
      have hr := hres t ht
      obtain ⟨r, hr⟩ := Option.isSome_iff_exists.1 hr
      rw [List.filterMap_cons_some hr, hr]
      rfl
    · rw [if_neg ht, List.filter_cons_of_neg (by simpa using ht), List.nil_append]
      congr 1
      rw [List.filter_eq_self]
      intro x hx
      have hxm : x ∈ st.2 := by
        have := (mem_firstOccurrences _ x).1 hx
        simpa using (List.mem_filter.1 this).2
      have : x ≠ t := fun h => ht (h ▸ hxm)
      simpa using this

theorem foldl_disabledStep (inst : Instance) (l : List String) :
    ∀ acc : List BootTarget,
      l.foldl (disabledStep inst) acc = acc ++ l.filterMap (resolve inst) := by
  induction l with
  | nil => intro acc; simp
  | cons a l ih =>
    intro acc
    rw [List.foldl_cons, ih]
    unfold disabledStep resolve
    cases hv : inst.Volumes.get? a with
    | some v => simp [List.filterMap_cons, resolve, hv]
    | none =>
      cases hn : inst.Nets.get? a with
      | some n => simp [List.filterMap_cons, resolve, hv, hn]
      | none => simp [List.filterMap_cons, resolve, hv, hn]

/-- The boot order computed by `RebuildBoot`, in closed form. -/
theorem RebuildBoot_boot (parse : String → GoMap String String) (range : RangeOrder)
    (inst : Instance) :
    (RebuildBoot parse range inst).Boot
      = ⟨(firstOccurrences ((bootTargets parse inst).filter (isBootEligible inst))).filterMap
            (resolve inst),
         (range.order ((eligibleBootInit inst).filter
            (fun k => decide (k ∉ bootTargets parse inst)))).filterMap (resolve inst)⟩ := by
  have hst : (if (((parse inst.configBoot).get? "order").getD "").data.length ≠ 0 then
        (Split (((parse inst.configBoot).get? "order").getD "") ';').foldl (enabledStep inst)
          (([] : List BootTarget), eligibleBootInit inst)
      else (([] : List BootTarget), eligibleBootInit inst))
      = (bootTargets parse inst).foldl (enabledStep inst) ([], eligibleBootInit inst) := by
    unfold bootTargets
    by_cases h : (((parse inst.configBoot).get? "order").getD "").data.length ≠ 0
    · simp only [if_pos h]
    · simp only [if_neg h, List.foldl_nil]
  have hfold := foldl_enabledStep inst (bootTargets parse inst) ([], eligibleBootInit inst)
    (fun k hk => resolve_isSome_of_eligible inst k hk)
  have helig : (bootTargets parse inst).filter (fun t => decide (t ∈ eligibleBootInit inst))
      = (bootTargets parse inst).filter (isBootEligible inst) := by
    apply List.filter_congr
    intro x _
    have := mem_eligibleBootInit inst x
    by_cases hx : x ∈ eligibleBootInit inst
    · simp [hx, this.1 hx]
    · have hb : isBootEligible inst x = false := by
        cases hb : isBootEligible inst x
        · rfl
        · exact absurd (this.2 hb) hx
      simp [hx, hb]
  show BootOrder.mk _ _ = _
  simp only [hst, hfold, helig, foldl_disabledStep, List.nil_append]

/-! ## Boot order: the claims -/

theorem resolve_ident (inst : Instance) (hkey : keyedById inst) (k : String) (r : BootTarget)
    (h : resolve inst k = some r) : r.ident = k := by
  unfold resolve at h
  cases hv : inst.Volumes.get? k with
  | some v =>
    rw [hv] at h
    cases h
    exact hkey.1 (k, v) (GoMap.mem_of_get? _ _ _ hv)
  | none =>
    rw [hv] at h
    obtain ⟨n, hn, rfl⟩ := Option.map_eq_some'.1 h
    exact hkey.2 (k, n) (GoMap.mem_of_get? _ _ _ hn)

theorem map_ident_filterMap_resolve (inst : Instance) (hkey : keyedById inst) (l : List String)
    (hl : ∀ k ∈ l, k ∈ eligibleBootInit inst) :
    (l.filterMap (resolve inst)).map BootTarget.ident = l := by
  induction l with
  | nil => rfl
  | cons a l ih =>
    obtain ⟨r, hr⟩ := Option.isSome_iff_exists.1
      (resolve_isSome_of_eligible inst a (hl a (List.mem_cons_self _ _)))
    rw [List.filterMap_cons_some hr, List.map_cons, resolve_ident inst hkey a r hr,
      ih (fun k hk => hl k (List.mem_cons_of_mem _ hk))]

theorem enabled_disabled_perm (inst : Instance) (range : RangeOrder) (targets : List String) :
    (firstOccurrences (targets.filter (isBootEligible inst))
      ++ range.order ((eligibleBootInit inst).filter (fun k => decide (k ∉ targets)))).Perm
      (eligibleBootInit inst) := by
  refine List.Perm.trans (List.Perm.append_left _ (range.perm _)) ?_
  have hnd := nodup_eligibleBootInit inst
  rw [List.perm_ext_iff_of_nodup _ hnd]
  · intro x
    rw [List.mem_append, mem_firstOccurrences, List.mem_filter, List.mem_filter,
      ← mem_eligibleBootInit]
    by_cases hx : x ∈ targets
    · simp [hx]
    · simp [hx]
  · refine List.Nodup.append (nodup_firstOccurrences _) (hnd.filter _) ?_
    intro x h1 h2
    rw [mem_firstOccurrences, List.mem_filter] at h1
    rw [List.mem_filter] at h2
    simpa [h1.1] using h2.2

theorem filterMap_resolve_bootEligibleIds (inst : Instance)
    (hdisj : ∀ k ∈ inst.Volumes.keys, k ∉ inst.Nets.keys) :
    (bootEligibleIds inst).filterMap (resolve inst) = bootEligible inst := by
  unfold bootEligibleIds bootEligible GoMap.keys
  rw [List.filterMap_append, List.filter_map, List.filterMap_map, List.filterMap_map]
  congr 1
  · rw [← List.filterMap_eq_map]
    apply List.filterMap_congr
    intro e he
    have hm := List.mem_of_mem_filter he
    show resolve inst e.1 = _
    unfold resolve
    rw [GoMap.get?_of_mem _ e hm]
    rfl
  · rw [← List.filterMap_eq_map]
    apply List.filterMap_congr
    intro e he
    show resolve inst e.1 = _
    unfold resolve
    have hk : e.1 ∉ inst.Volumes.keys := fun h =>
      hdisj e.1 h (List.mem_map_of_mem Prod.fst he)
    rw [(GoMap.get?_eq_none_iff _ _).2 hk, GoMap.get?_of_mem _ e he]
    rfl

theorem map_ident_bootEligible (inst : Instance) (hkey : keyedById inst) :
    (bootEligible inst).map BootTarget.ident = bootEligibleIds inst := by
  unfold bootEligible bootEligibleIds GoMap.keys
  rw [List.map_append, List.map_map, List.map_map, List.filter_map]
  congr 1
  · apply List.map_congr_left
    intro e he
    exact hkey.1 e (List.mem_of_mem_filter he)
  · apply List.map_congr_left
    intro e he
    exact hkey.2 e he

/-- Claim C1, amended. For every VM instance whose volume identifiers and net identifiers
are disjoint and whose volumes and nets are stored under their own identifiers, for every
raw boot string and every iteration order: after `RebuildBoot`, `Boot.Enabled` together
with `Boot.Disabled` is a rearrangement of the boot-eligible resources of the instance
(the volumes whose identifier has prefix sata, scsi or ide, and the nets), their
identifiers are exactly the boot-eligible identifiers, no identifier occurs twice in or
across the two lists, and the two lengths add up to the number of boot-eligible volumes
and nets. -/
theorem RebuildBoot_partitions_bootEligible (parse : String → GoMap String String)
    (range : RangeOrder) (inst : Instance)
    (hdisj : ∀ k ∈ inst.Volumes.keys, k ∉ inst.Nets.keys) (hkey : keyedById inst) :
    ((RebuildBoot parse range inst).Boot.Enabled
        ++ (RebuildBoot parse range inst).Boot.Disabled).Perm (bootEligible inst)
    ∧ (((RebuildBoot parse range inst).Boot.Enabled
        ++ (RebuildBoot parse range inst).Boot.Disabled).map BootTarget.ident).Perm
        (bootEligibleIds inst)
    ∧ (((RebuildBoot parse range inst).Boot.Enabled
        ++ (RebuildBoot parse range inst).Boot.Disabled).map BootTarget.ident).Nodup
    ∧ (RebuildBoot parse range inst).Boot.Enabled.length
        + (RebuildBoot parse range inst).Boot.Disabled.length
        = ((inst.Volumes.keys.filter hasBootPrefix).length + inst.Nets.keys.length) := by
  have hperm : ((RebuildBoot parse range inst).Boot.Enabled
      ++ (RebuildBoot parse range inst).Boot.Disabled).Perm (bootEligible inst) := by
    rw [RebuildBoot_boot]
    show (List.filterMap _ _ ++ List.filterMap _ _).Perm _
    rw [← List.filterMap_append, ← filterMap_resolve_bootEligibleIds inst hdisj,
      ← eligibleBootInit_of_disjoint inst hdisj]
    exact (enabled_disabled_perm inst range (bootTargets parse inst)).filterMap _
  have hids := (hperm.map BootTarget.ident)
  rw [map_ident_bootEligible inst hkey] at hids
  have hnd : (bootEligibleIds inst).Nodup := by
    rw [← eligibleBootInit_of_disjoint inst hdisj]
    exact nodup_eligibleBootInit inst
  refine ⟨hperm, hids, hids.nodup_iff.2 hnd, ?_⟩
  have hlen := hids.length_eq
  rw [List.length_map, List.length_append] at hlen
  rw [hlen]
  unfold bootEligibleIds
  rw [List.length_append]

/-- Witness of `RebuildBoot_partitions_bootEligible`: volumes scsi0 and ide2, net net0,
boot string `order=scsi0;net0`. -/
theorem RebuildBoot_partitions_bootEligible_witness :
    (((RebuildBoot PVEObjectStringToMap RangeOrder.insertion
        (sampleInstance ["scsi0", "ide2"] ["net0"] "order=scsi0;net0")).Boot.Enabled
      ++ (RebuildBoot PVEObjectStringToMap RangeOrder.insertion
        (sampleInstance ["scsi0", "ide2"] ["net0"] "order=scsi0;net0")).Boot.Disabled).map
        BootTarget.ident).Nodup
    ∧ (RebuildBoot PVEObjectStringToMap RangeOrder.insertion
        (sampleInstance ["scsi0", "ide2"] ["net0"] "order=scsi0;net0")).Boot.Enabled.length
      + (RebuildBoot PVEObjectStringToMap RangeOrder.insertion
        (sampleInstance ["scsi0", "ide2"] ["net0"] "order=scsi0;net0")).Boot.Disabled.length
      = 3 :=
  have h := RebuildBoot_partitions_bootEligible PVEObjectStringToMap RangeOrder.insertion
    (sampleInstance ["scsi0", "ide2"] ["net0"] "order=scsi0;net0") (by decide)
    ⟨by decide, by decide⟩
  ⟨h.2.2.1, h.2.2.2.trans (by decide)⟩

/-- Claim C1 as stated fails: a VM holding a volume and a net that are both named scsi0
has two boot-eligible resources, and after `RebuildBoot` the two lists hold one entry. -/
theorem RebuildBoot_count_fails_on_shared_identifier :
    (bootEligible (sampleInstance ["scsi0"] ["scsi0"] "")).length = 2
    ∧ (RebuildBoot PVEObjectStringToMap RangeOrder.insertion
        (sampleInstance ["scsi0"] ["scsi0"] "")).Boot.Enabled.length
      + (RebuildBoot PVEObjectStringToMap RangeOrder.insertion
        (sampleInstance ["scsi0"] ["scsi0"] "")).Boot.Disabled.length = 1 := by
  decide

/-- Claim C2, amended. For every VM instance whose volumes and nets are stored under their
own identifiers, every raw boot string and every iteration order: after `RebuildBoot` the
identifiers of `Boot.Enabled` are the semicolon-separated targets of the `order` field, in
the order given, keeping the first occurrence of every target that is a boot-eligible
volume or a net of the instance; a target that is not eligible or does not exist is in
neither list. With volumes scsi0 and ide2 and net net0, `order=scsi0;net0` gives Enabled
scsi0, net0 and Disabled ide2; with the single volume scsi0, `order=scsi0;sata3` gives
Enabled scsi0 and sata3 is in neither list. -/
theorem RebuildBoot_enabled_firstOccurrences (parse : String → GoMap String String)
    (range : RangeOrder) (inst : Instance) (hkey : keyedById inst) :
    (RebuildBoot parse range inst).Boot.Enabled.map BootTarget.ident
        = firstOccurrences ((bootTargets parse inst).filter (isBootEligible inst))
    ∧ (∀ t, isBootEligible inst t = false →
        t ∉ ((RebuildBoot parse range inst).Boot.Enabled
          ++ (RebuildBoot parse range inst).Boot.Disabled).map BootTarget.ident)
    ∧ ((RebuildBoot PVEObjectStringToMap range
          (sampleInstance ["scsi0", "ide2"] ["net0"] "order=scsi0;net0")).Boot.Enabled
          = [BootTarget.volume (sampleVolume "scsi0"), BootTarget.net (sampleNet "net0")]
        ∧ (RebuildBoot PVEObjectStringToMap range
          (sampleInstance ["scsi0", "ide2"] ["net0"] "order=scsi0;net0")).Boot.Disabled
          = [BootTarget.volume (sampleVolume "ide2")])
    ∧ ((RebuildBoot PVEObjectStringToMap range
          (sampleInstance ["scsi0"] [] "order=scsi0;sata3")).Boot.Enabled
          = [BootTarget.volume (sampleVolume "scsi0")]
        ∧ (RebuildBoot PVEObjectStringToMap range
          (sampleInstance ["scsi0"] [] "order=scsi0;sata3")).Boot.Disabled = []) := by
  have hA : ∀ k ∈ firstOccurrences ((bootTargets parse inst).filter (isBootEligible inst)),
      k ∈ eligibleBootInit inst := by
    intro k hk
    rw [mem_firstOccurrences, List.mem_filter] at hk
    exact (mem_eligibleBootInit inst k).2 hk.2
  have hR : ∀ k ∈ range.order ((eligibleBootInit inst).filter
      (fun k => decide (k ∉ bootTargets parse inst))), k ∈ eligibleBootInit inst := by
    intro k hk
    exact List.mem_of_mem_filter ((range.perm _).mem_iff.1 hk)
  have hsingle : ∀ x : String, range.order [x] = [x] := fun x =>
    List.perm_singleton.1 (range.perm [x])
  have hnil : range.order [] = [] := List.perm_nil.1 (range.perm [])
  refine ⟨?_, ?_, ⟨?_, ?_⟩, ⟨?_, ?_⟩⟩
  · rw [RebuildBoot_boot]
    exact map_ident_filterMap_resolve inst hkey _ hA
  · intro t ht hmem
    rw [RebuildBoot_boot, List.map_append] at hmem
    simp only [map_ident_filterMap_resolve inst hkey _ hA,
      map_ident_filterMap_resolve inst hkey _ hR] at hmem
    have hin : t ∈ eligibleBootInit inst := by
      rcases List.mem_append.1 hmem with h | h
      · exact hA t h
      · exact hR t h
    rw [mem_eligibleBootInit, ht] at hin
    cases hin
  · rw [RebuildBoot_boot]
    dsimp only
    decide
  · rw [RebuildBoot_boot]
    have h : (eligibleBootInit (sampleInstance ["scsi0", "ide2"] ["net0"] "order=scsi0;net0")).filter
        (fun k => decide (k ∉ bootTargets PVEObjectStringToMap
          (sampleInstance ["scsi0", "ide2"] ["net0"] "order=scsi0;net0"))) = ["ide2"] := by
      decide
    simp only [h, hsingle]
    decide
  · rw [RebuildBoot_boot]
    dsimp only
    decide
  · rw [RebuildBoot_boot]
    have h : (eligibleBootInit (sampleInstance ["scsi0"] [] "order=scsi0;sata3")).filter
        (fun k => decide (k ∉ bootTargets PVEObjectStringToMap
          (sampleInstance ["scsi0"] [] "order=scsi0;sata3"))) = [] := by
      decide
    simp only [h, hnil]
    decide

/-- Witness of `RebuildBoot_enabled_firstOccurrences`: volumes scsi0 and ide2, net net0,
boot string `order=scsi0;sata3;net0;scsi0`. -/
theorem RebuildBoot_enabled_firstOccurrences_witness :
    (RebuildBoot PVEObjectStringToMap RangeOrder.insertion
        (sampleInstance ["scsi0", "ide2"] ["net0"]
          "order=scsi0;sata3;net0;scsi0")).Boot.Enabled.map BootTarget.ident
      = ["scsi0", "net0"] :=
  (RebuildBoot_enabled_firstOccurrences PVEObjectStringToMap RangeOrder.insertion
    (sampleInstance ["scsi0", "ide2"] ["net0"] "order=scsi0;sata3;net0;scsi0")
    ⟨by decide, by decide⟩).1.trans (by decide)

/-- Claim C2 as stated fails: with the single volume scsi0 and the boot string
`order=scsi0;scsi0` both targets are boot-eligible volumes of the instance, and
`Boot.Enabled` holds scsi0 once. -/
theorem RebuildBoot_enabled_drops_repeated_target :
    (bootTargets PVEObjectStringToMap
        (sampleInstance ["scsi0"] [] "order=scsi0;scsi0")).filter
        (isBootEligible (sampleInstance ["scsi0"] [] "order=scsi0;scsi0"))
      = ["scsi0", "scsi0"]
    ∧ (RebuildBoot PVEObjectStringToMap RangeOrder.insertion
        (sampleInstance ["scsi0"] [] "order=scsi0;scsi0")).Boot.Enabled.map BootTarget.ident
      = ["scsi0"] := by
  decide

/-! ## Device reservation after `RebuildNode` -/

namespace GoMap

variable {K V : Type} [DecidableEq K]

theorem get?_set_self (m : GoMap K V) (k : K) (v : V) : (m.set k v).get? k = some v := by
  simp [get?, set]

theorem get?_delete_self (m : GoMap K V) (k : K) : (m.delete k).get? k = none := by
  rw [get?_eq_none_iff]
  simp [keys, delete, List.mem_filter]

end GoMap

theorem foldl_or_reserved (l : List (String × Function)) :
    ∀ acc : Bool,
      l.foldl (fun reserved e => reserved || e.2.Reserved) acc = true
        ↔ acc = true ∨ ∃ f ∈ l, f.2.Reserved = true := by
  induction l with
  | nil => intro acc; simp
  | cons a l ih =>
    intro acc
    rw [List.foldl_cons, ih]
    cases acc <;> simp

theorem functionsReserved_iff (device : Device) :
    functionsReserved device = true ↔ ∃ f ∈ device.Functions.entries, f.2.Reserved = true := by
  unfold functionsReserved
  rw [foldl_or_reserved]
  simp

theorem recomputeReserved_spec (host : Node) :
    ∀ e ∈ (recomputeReserved host).Devices.entries,
      (e.2.Reserved = true ↔ ∃ f ∈ e.2.Functions.entries, f.2.Reserved = true) := by
  intro e he
  unfold recomputeReserved GoMap.mapValues at he
  obtain ⟨d, _, rfl⟩ := List.mem_map.1 he
  exact functionsReserved_iff d.2

theorem nodeBody_atEnd (be : Backend) (cluster : Cluster) (hostName : String) (host : Node)
    (received : Option (Option String)) (c : Cluster)
    (h : (nodeBody be cluster hostName host received).atEnd 150 = some c) :
    ∃ h1 : Node, c = ⟨cluster.Nodes.set hostName (recomputeReserved h1)⟩ := by
  unfold nodeBody at h
  simp only at h
  split at h
  · simp [Outcome.atEnd] at h
  · split at h
    · simp [Outcome.atEnd] at h
    · split at h
      · simp [Outcome.atEnd] at h
      · split at h
        · simp [Outcome.atEnd] at h
        · split at h
          · simp only [Outcome.atEnd, if_true, Option.some.injEq] at h
            exact ⟨_, h.symm⟩
          · simp only [Outcome.atEnd, Option.some.injEq] at h
            exact ⟨_, h.symm⟩

theorem RebuildNode_atEnd (be : Backend) (cluster : Cluster) (hostName : String) (c : Cluster)
    (h : (RebuildNode be cluster hostName).atEnd 150 = some c) :
    ∃ h1 : Node, c.Nodes.get? hostName = some (recomputeReserved h1) := by
  unfold RebuildNode at h
  simp only at h
  split at h
  · simp [Outcome.atEnd] at h
  · split at h
    · simp [Outcome.atEnd] at h
    · split at h
      · simp [Outcome.atEnd] at h
      · obtain ⟨h1, rfl⟩ := nodeBody_atEnd _ _ _ _ _ _ h
        exact ⟨h1, GoMap.get?_set_self _ _ _⟩

/-- Claim C3. Whenever `RebuildNode` has run through its whole body (the goroutine
ended, or it is stuck at its final send on line 150 after an earlier send), the cluster
holds the host, and every device in that node's `Devices` map has `Reserved` equal to the
logical or of the `Reserved` flags of its functions: true exactly when at least one
function is reserved. -/
theorem RebuildNode_device_reserved (be : Backend) (cluster : Cluster) (hostName : String)
    (c : Cluster) (h : (RebuildNode be cluster hostName).atEnd 150 = some c) :
    ∃ host : Node, c.Nodes.get? hostName = some host
      ∧ ∀ e ∈ host.Devices.entries,
          (e.2.Reserved = true ↔ ∃ f ∈ e.2.Functions.entries, f.2.Reserved = true) := by
  obtain ⟨h1, hget⟩ := RebuildNode_atEnd be cluster hostName c h
  exact ⟨recomputeReserved h1, hget, recomputeReserved_spec h1⟩

/-- Witness of `RebuildNode_device_reserved`: the reachable host `twoDeviceHost`. After
`RebuildNode` the device with functions unreserved, reserved is reserved, and the device
whose only function is unreserved is not. -/
theorem RebuildNode_device_reserved_witness :
    (∃ host : Node,
        (Cluster.mk ((GoMap.empty : GoMap String Node).set "pve1"
          (recomputeReserved twoDeviceHost))).Nodes.get? "pve1" = some host
        ∧ ∀ e ∈ host.Devices.entries,
            (e.2.Reserved = true ↔ ∃ f ∈ e.2.Functions.entries, f.2.Reserved = true))
    ∧ ((RebuildNode reachableBackend ⟨GoMap.empty⟩ "pve1").atEnd 150).map
        (fun c => (c.Nodes.get? "pve1").map
          (fun host => host.Devices.entries.map (fun e => (e.1, e.2.Reserved))))
      = some (some [("0000:01:00", true), ("0000:02:00", false)]) :=
  ⟨RebuildNode_device_reserved reachableBackend ⟨GoMap.empty⟩ "pve1"
      (Cluster.mk ((GoMap.empty : GoMap String Node).set "pve1"
        (recomputeReserved twoDeviceHost))) rfl,
    by decide⟩

/-! ## Unreachable hosts -/

/-- Claim C4, the code at the failing input: the cluster knows pve1 only and the fetch of
pve9 fails. The caller receives the error; the goroutine goes on and, when the failed
fetch returned a non-nil host, stores that host under pve9 and ends up stuck at the send
of line 150; when it returned nil, the process faults on line 101. -/
theorem RebuildNode_unreachable_new_host_inserted :
    (RebuildNode unreachableBackend oneNodeCluster "pve9").returned
        = some (some "error retrieving pve9: unreachable")
    ∧ (RebuildNode unreachableBackend oneNodeCluster "pve9").blockedLine? = some 150
    ∧ ((RebuildNode unreachableBackend oneNodeCluster "pve9").state?).map
        (fun c => c.Nodes.keys) = some ["pve9", "pve1"]
    ∧ oneNodeCluster.Nodes.keys = ["pve1"]
    ∧ (RebuildNode unreachableNilBackend oneNodeCluster "pve9").returned
        = some (some "error retrieving pve9: unreachable")
    ∧ (RebuildNode unreachableNilBackend oneNodeCluster "pve9").faultLine? = some 101 := by
  decide

/-- Claim C5, the code at the failing input: the cluster knows pve1 (8 cores) and the
fetch of pve1 fails. The caller receives nil after the stale entry is deleted; the
goroutine goes on and, when the failed fetch returned a non-nil host (0 cores), stores
that host under pve1 again and ends up stuck at the send of line 150; when it returned
nil, the process faults on line 101 before anything is deleted or sent. -/
theorem RebuildNode_unreachable_known_host_reinserted :
    (RebuildNode unreachableBackend oneNodeCluster "pve1").returned = some none
    ∧ (RebuildNode unreachableBackend oneNodeCluster "pve1").blockedLine? = some 150
    ∧ ((RebuildNode unreachableBackend oneNodeCluster "pve1").state?).map
        (fun c => (c.Nodes.keys, (c.Nodes.get? "pve1").map (fun host => host.Cores)))
        = some (["pve1"], some 0)
    ∧ (oneNodeCluster.Nodes.get? "pve1").map (fun host => host.Cores) = some 8
    ∧ (RebuildNode unreachableNilBackend oneNodeCluster "pve1").returned = none
    ∧ (RebuildNode unreachableNilBackend oneNodeCluster "pve1").faultLine? = some 101 := by
  decide

/-! ## Device assignment -/

/-- Claim C6, the code at the failing input: a stand-alone `RebuildInstance` of virtual
machine 100, whose entry `hostpci0` names the whole device 0000:01:00 of the node. The
pass ends without error, the function of the device is reserved and the device is not;
a full `RebuildNode` of the same host leaves the device reserved. -/
theorem RebuildInstance_leaves_device_unreserved :
    (RebuildInstance (pciBackend "0000:01:00,pcie=1") oneDeviceHost InstanceType.VM 100).returned
        = some none
    ∧ ((RebuildInstance (pciBackend "0000:01:00,pcie=1") oneDeviceHost
          InstanceType.VM 100).atEnd 230).map
        (fun host => host.Devices.entries.map
          (fun e => (e.1, e.2.Reserved, e.2.Functions.entries.map (fun f => f.2.Reserved))))
        = some [("0000:01:00", false, [true])]
    ∧ ((RebuildNode (pciBackend "0000:01:00,pcie=1") ⟨GoMap.empty⟩ "pve1").atEnd 150).map
        (fun c => (c.Nodes.get? "pve1").map (fun host => host.Devices.entries.map
          (fun e => (e.1, e.2.Reserved, e.2.Functions.entries.map (fun f => f.2.Reserved)))))
        = some (some [("0000:01:00", true, [true])]) := by
  decide

/-- Claim C7, the code at the failing input: the entry `hostpci0` names the whole device
0000:05:00, which is not a key of the node's `Devices`. `RebuildDevice` faults on line 278
(the functions of a nil device). For the device 0000:01:00, which the node holds, the
instance is bound to the node's device, its function is reserved and the device is tagged
`hostpci0`. -/
theorem RebuildDevice_faults_on_unknown_bus :
    faultLineOf (RebuildDevice (pciBackend "") oneDeviceHost
        (fetchedInstance InstanceType.VM [] [("hostpci0", "0000:05:00,pcie=1")]) "hostpci0")
      = some 278
    ∧ DeviceBusIDIsSuperDevice "0000:05:00" = true
    ∧ oneDeviceHost.Devices.keys = ["0000:01:00"]
    ∧ (resultOf (RebuildDevice (pciBackend "") oneDeviceHost
        (fetchedInstance InstanceType.VM [] [("hostpci0", "0000:01:00,pcie=1")])
        "hostpci0")).map
        (fun r => (r.2.Devices.entries,
          r.1.Devices.entries.map (fun e =>
            (e.1, e.2.Device_ID, e.2.Functions.entries.map (fun f => f.2.Reserved)))))
      = some ([("hostpci0", some "0000:01:00")], [("0000:01:00", "hostpci0", [true])]) := by
  decide

/-- Claim C8, the code at the failing input: the entry `hostpci0` names the sub-function
0000:01:00.0 and the instance holds no device under `hostpci0`. The assignment is
skipped, and `RebuildDevice` then faults on line 285 (the `Device_ID` of a nil device). -/
theorem RebuildDevice_faults_on_sub_function :
    faultLineOf (RebuildDevice (pciBackend "") oneDeviceHost
        (fetchedInstance InstanceType.VM [] [("hostpci0", "0000:01:00.0,pcie=1")]) "hostpci0")
      = some 285
    ∧ DeviceBusIDIsSuperDevice "0000:01:00.0" = false
    ∧ (fetchedInstance InstanceType.VM [] [("hostpci0", "0000:01:00.0,pcie=1")]).Devices.keys
      = [] := by
  decide

/-! ## Nets -/

/-- Claim C9, amended. For every network entry for which the net parser returns a net
(a non-nil pointer), `RebuildNet` does not fault and returns no error; when the parser
reports no error, the instance's `Nets` map holds under the network identifier the parsed
net with `Net_ID` set to that identifier; when the parser reports an error, the `Nets`
map is left as it was and no net is stored for the entry. -/
theorem RebuildNet_lenient (be : Backend) (inst : Instance) (netid : String) (netinfo : Net)
    (err : Option String)
    (h : be.GetNetInfo ((inst.configNets.get? netid).getD "") = (some netinfo, err)) :
    ∃ inst1 : Instance, RebuildNet be inst netid = .ok (inst1, none)
      ∧ (err = none → inst1.Nets.get? netid = some { netinfo with Net_ID := netid })
      ∧ (err ≠ none → inst1.Nets = inst.Nets) := by
  unfold RebuildNet
  simp only [h]
  cases err with
  | none =>
    refine ⟨_, rfl, fun _ => GoMap.get?_set_self _ _ _, fun hne => absurd rfl hne⟩
  | some e =>
    refine ⟨inst, rfl, fun he => ?_, fun _ => rfl⟩
    cases he

/-- Witness of `RebuildNet_lenient`: the entry net0 of a fetched instance, with a parser
that accepts it. -/
theorem RebuildNet_lenient_witness :
    ∃ inst1 : Instance,
      RebuildNet reachableBackend
          (fetchedInstance InstanceType.VM [("net0", "virtio,bridge=vmbr0")] []) "net0"
        = .ok (inst1, none)
      ∧ ((none : Option String) = none →
          inst1.Nets.get? "net0" = some { (⟨"", "virtio,bridge=vmbr0", 0, 0⟩ : Net) with
            Net_ID := "net0" })
      ∧ ((none : Option String) ≠ none →
          inst1.Nets
            = (fetchedInstance InstanceType.VM [("net0", "virtio,bridge=vmbr0")] []).Nets) :=
  RebuildNet_lenient reachableBackend
    (fetchedInstance InstanceType.VM [("net0", "virtio,bridge=vmbr0")] []) "net0"
    ⟨"", "virtio,bridge=vmbr0", 0, 0⟩ none rfl

/-- Claim C9 as stated fails: when the parser reports an error for the entry net0,
`RebuildNet` returns no error and the `Nets` map of the instance stays empty. -/
theorem RebuildNet_stores_nothing_on_parse_error :
    (failingNetInfo "virtio,bridge=vmbr0,rate=x").2 = some "malformed net"
    ∧ (resultOf (RebuildNet
        (sampleBackend (fun _ => (none, some "unreachable")) []
          (fun _ => (none, some "no such vm")) failingNetInfo)
        (fetchedInstance InstanceType.VM [("net0", "virtio,bridge=vmbr0,rate=x")] [])
        "net0")).map (fun r => (r.2, r.1.Nets.keys, r.1.Nets.get? "net0"))
      = some (none, [], none) := by
  decide

end App
